import Mathlib

/-!
Verification of the OpenAI instrumentation shim
(`src/opentelemetry/instrumentation/openai/__init__.py`).

The module intercepts the `create` entry points of four OpenAI client
objects, wraps each call in a trace span, records input keyword arguments
and flattened response attributes on the span, and passes the wrapped
call's result (or exception) through to the caller.

We shallowly embed the Python code: Python values become the inductive
`PyVal` (duck-typed objects are `dict`s whose missing attributes raise
`AttributeError`), fallible Python expressions become `Except PyErr _`,
the mutable span becomes an explicit `Span` record threaded through the
phases of `_wrap_cmd`, and the backend's `set_attribute` — which may
reject a value — is parametrised by an oracle `attrOk`.
-/

namespace OpenAIInstr

/-- Python runtime values as far as this module inspects them: `None`,
booleans, integers, strings, lists, and dict-like objects (both plain
dicts and `OpenAIObject`s, which are dict-backed and raise
`AttributeError` on missing attribute access). -/
inductive PyVal where
  | none
  | bool (b : Bool)
  | int (n : Int)
  | str (s : String)
  | list (xs : List PyVal)
  | dict (kvs : List (String × PyVal))

/-- Python exceptions distinguished by the embedding: `AttributeError`
from missing-attribute access, `TypeError` from iterating or key-popping
a non-container, the tracing backend rejecting `set_attribute`, and an
opaque error (used for errors of the wrapped call itself). -/
inductive PyErr where
  | attributeError (attr : String)
  | typeError (msg : String)
  | setAttributeError (key : String)
  | other (msg : String)
deriving Repr, DecidableEq

/-- Python truthiness (`bool(v)`): `None`, `False`, `0`, `""`, `[]`, `{}`
are falsy; everything else is truthy. -/
def truthy : PyVal → Bool
  | .none => false
  | .bool b => b
  | .int n => n != 0
  | .str s => !s.isEmpty
  | .list xs => !xs.isEmpty
  | .dict kvs => !kvs.isEmpty

/-- First-match lookup in an insertion-ordered association list, the view
of a Python dict. -/
def dictLookup : List (String × PyVal) → String → Option PyVal
  | [], _ => Option.none
  | (k, v) :: rest, key => if k = key then some v else dictLookup rest key

/-- Remove every entry with the given key (`dict.pop` removal part). -/
def dictRemove (kvs : List (String × PyVal)) (key : String) :
    List (String × PyVal) :=
  kvs.filter (fun kv => kv.1 ≠ key)

/-- `d.pop(key, None)`: the popped value if the key is present (else
`None`, modelled as `Option.none`), together with the dict with the key
removed. -/
def dictPop (kvs : List (String × PyVal)) (key : String) :
    Option PyVal × List (String × PyVal) :=
  (dictLookup kvs key, dictRemove kvs key)

/-- `d[key] = v`: replace the value at an existing key in place, else
append the new entry (Python dicts keep insertion order). -/
def dictSet : List (String × PyVal) → String → PyVal → List (String × PyVal)
  | [], key, v => [(key, v)]
  | (k, w) :: rest, key, v =>
      if k = key then (k, v) :: rest else (k, w) :: dictSet rest key v

/-- `d.update(upds)`: set each pair in order. -/
def dictUpdate (kvs upds : List (String × PyVal)) : List (String × PyVal) :=
  upds.foldl (fun acc kv => dictSet acc kv.1 kv.2) kvs

/-- Attribute access `v.attr` on a dict-backed object: look the name up,
raising `AttributeError` when it is missing or the receiver is not
dict-backed (`OpenAIObject.__getattr__` raises on a missing key). -/
def getattr (v : PyVal) (attr : String) : Except PyErr PyVal :=
  match v with
  | .dict kvs =>
      match dictLookup kvs attr with
      | some w => .ok w
      | Option.none => .error (.attributeError attr)
  | _ => .error (.attributeError attr)

/-- Python iteration `for x in v`: lists yield their elements, dicts
their keys, strings their one-character substrings; other values raise
`TypeError`. -/
def pyIter : PyVal → Except PyErr (List PyVal)
  | .list xs => .ok xs
  | .dict kvs => .ok (kvs.map (fun kv => .str kv.1))
  | .str s => .ok (s.toList.map (fun c => .str (String.singleton c)))
  | _ => .error (.typeError "object is not iterable")

/-- Truthiness of the result of `d.pop(key, None)`: absent keys pop to
`None`, which is falsy. -/
def popTruthy : Option PyVal → Bool
  | Option.none => false
  | some v => truthy v

/-- A Python list comprehension `[f(x) for x in xs]` whose body may
raise: evaluate left to right, aborting at the first exception. -/
def mapExcept (f : PyVal → Except PyErr PyVal) :
    List PyVal → Except PyErr (List PyVal)
  | [] => .ok []
  | x :: xs =>
      match f x with
      | .error e => .error e
      | .ok y =>
          match mapExcept f xs with
          | .error e => .error e
          | .ok ys => .ok (y :: ys)

/-- `choice.text or choice.message.content` (source line 82): evaluate
`choice.text` (raising if absent); keep it when truthy, else fall back to
`choice.message.content` (each access raising if absent). -/
def flattenChoice (c : PyVal) : Except PyErr PyVal :=
  match getattr c "text" with
  | .error e => .error e
  | .ok t =>
      if truthy t then .ok t
      else
        match getattr c "message" with
        | .error e => .error e
        | .ok m => getattr m "content"

/-- The `if choices:` branch (source lines 79–87): build the per-choice
message and finish-reason sequences and `update` them into the
accumulated attributes. The dict literal is evaluated fully (messages
comprehension first) before the update is applied. -/
def choicesPart (choicesOpt : Option PyVal) (acc : List (String × PyVal)) :
    Except PyErr (List (String × PyVal)) :=
  if popTruthy choicesOpt then
    match pyIter (choicesOpt.getD .none) with
    | .error e => .error e
    | .ok cs =>
        match mapExcept flattenChoice cs with
        | .error e => .error e
        | .ok msgs =>
            match mapExcept (fun c => getattr c "finish_reason") cs with
            | .error e => .error e
            | .ok fins =>
                .ok (dictUpdate acc
                  [("prompt_response.messages", .list msgs),
                   ("prompt_response.finish_reason", .list fins)])
  else .ok acc

/-- The `if data:` branch (source lines 88–96): both the embedding and
the url sequences are always attempted, whatever the operation type. -/
def dataPart (dataOpt : Option PyVal) (acc : List (String × PyVal)) :
    Except PyErr (List (String × PyVal)) :=
  if popTruthy dataOpt then
    match pyIter (dataOpt.getD .none) with
    | .error e => .error e
    | .ok ds =>
        match mapExcept (fun d => getattr d "embedding") ds with
        | .error e => .error e
        | .ok embs =>
            match mapExcept (fun d => getattr d "url") ds with
            | .error e => .error e
            | .ok urls =>
                .ok (dictUpdate acc
                  [("prompt_response.embedding", .list embs),
                   ("prompt_response.image_url", .list urls)])
  else .ok acc

/-- The `if usage:` branch (source lines 97–100): add `usage.<key>` for
each item of the usage mapping. `usage.items()` raises `AttributeError`
on a non-dict value. -/
def usagePart (usageOpt : Option PyVal) (acc : List (String × PyVal)) :
    Except PyErr (List (String × PyVal)) :=
  if popTruthy usageOpt then
    match usageOpt.getD .none with
    | .dict items =>
        .ok (dictUpdate acc (items.map (fun kv => ("usage." ++ kv.1, kv.2))))
    | _ => .error (.attributeError "items")
  else .ok acc

/-- `_get_response_attributes` (source lines 71–102): shallow-copy the
response, pop `choices`, `data` and `usage` out of the copy, and run the
three flattening branches over it. A list response fails at
`pop("choices", None)` with `TypeError`; other non-dicts have no `copy`
attribute. -/
def getResponseAttributes (response : PyVal) :
    Except PyErr (List (String × PyVal)) :=
  match response with
  | .dict kvs =>
      let popChoices := dictPop kvs "choices"
      let popData := dictPop popChoices.2 "data"
      let popUsage := dictPop popData.2 "usage"
      match choicesPart popChoices.1 popUsage.2 with
      | .error e => .error e
      | .ok a4 =>
          match dataPart popData.1 a4 with
          | .error e => .error e
          | .ok a5 => usagePart popUsage.1 a5
  | .list _ => .error (.typeError "pop expected an integer argument")
  | _ => .error (.attributeError "copy")

/-- Span kinds used by the module (`SpanKind.CLIENT` is the only one it
passes; `internal` stands for the backend's default). -/
inductive PySpanKind where
  | client
  | internal
deriving Repr, DecidableEq

/-- Span status codes the module touches: the initial `UNSET` and the
explicit `OK` of `span.set_status(Status(StatusCode.OK))`. -/
inductive PyStatusCode where
  | unset
  | ok
deriving Repr, DecidableEq

/-- The observable state of one trace span: its name, kind, recorded
attributes, terminal status, whether the backend samples it
(`is_recording`), and whether it has been ended. -/
structure Span where
  name : String
  kind : PySpanKind
  attributes : List (String × PyVal)
  status : PyStatusCode
  recording : Bool
  ended : Bool

/-- `tracer.start_as_current_span(cmd, kind=SpanKind.CLIENT, attributes={})`
(source lines 124–126): a fresh, unended span named `cmd` of kind CLIENT
with no attributes and unset status. `recording` abstracts the tracer's
sampling decision. -/
def startSpan (recording : Bool) (cmd : String) : Span :=
  { name := cmd, kind := .client, attributes := [], status := .unset,
    recording := recording, ended := false }

/-- Exiting the `with ... as span` block ends the span, on every exit
path. -/
def endSpan (s : Span) : Span :=
  { s with ended := true }

/-- `span.set_attribute(key, value)`: the backend may reject a pair (a
non-serialisable value, say) and raise; the oracle `attrOk` decides
which pairs it accepts. An accepted pair is stored on the span. -/
def setAttribute (attrOk : String → PyVal → Bool) (s : Span)
    (key : String) (v : PyVal) : Except PyErr Span :=
  if attrOk key v then .ok { s with attributes := dictSet s.attributes key v }
  else .error (.setAttributeError key)

/-- Run `span.set_attribute` over a list of pairs in order, stopping at
the first failure: returns the span after the attributes that were set
before the failure, and the error if one occurred. -/
def setAttrsLoop (attrOk : String → PyVal → Bool) (s : Span) :
    List (String × PyVal) → Span × Option PyErr
  | [] => (s, Option.none)
  | (k, v) :: rest =>
      match setAttribute attrOk s k v with
      | .ok s1 => setAttrsLoop attrOk s1 rest
      | .error e => (s, some e)

/-- The first error `set_attribute` would raise on a list of pairs,
independent of the span it is applied to. -/
def firstSetError (attrOk : String → PyVal → Bool) :
    List (String × PyVal) → Option PyErr
  | [] => Option.none
  | (k, v) :: rest =>
      if attrOk k v then firstSetError attrOk rest
      else some (.setAttributeError k)

/-- The input-attribute pass of `_wrap_cmd` (source lines 127–135): when
the span is recording and there are keyword arguments, set each kwarg as
a span attribute; any exception is caught and logged as a warning (the
second component counts warnings), and never escapes. A non-recording
span skips the pass entirely. -/
def inputPhase (attrOk : String → PyVal → Bool) (s : Span)
    (kwargs : List (String × PyVal)) : Span × Nat :=
  if s.recording then
    if kwargs.isEmpty then (s, 0)
    else
      let l := setAttrsLoop attrOk s kwargs
      (l.1, if l.2.isSome then 1 else 0)
  else (s, 0)

/-- The output pass of `_wrap_cmd` (source lines 138–141): if the
response is truthy, flatten it, set every flattened pair on the span,
and mark the span OK. Errors here are NOT caught: they are returned (and
will propagate to the caller). -/
def outputPhase (attrOk : String → PyVal → Bool) (s : Span)
    (response : PyVal) : Span × Option PyErr :=
  if truthy response then
    match getResponseAttributes response with
    | .error e => (s, some e)
    | .ok attrs =>
        let l := setAttrsLoop attrOk s attrs
        match l.2 with
        | Option.none => ({ l.1 with status := .ok }, Option.none)
        | some e => (l.1, some e)
  else (s, Option.none)

/-- The outcome `_wrap_cmd` leaves behind: what the caller receives, the
span handed to the backend, and how many warnings were logged. -/
structure TraceResult where
  result : Except PyErr PyVal
  span : Span
  warnings : Nat

/-- `_wrap_cmd` (source lines 122–143) given the outcome of the wrapped
call: open a span named `cmd` with kind CLIENT; run the isolated
input-attribute pass; invoke the wrapped callable (its outcome is the
parameter `wres`) with errors propagating; on a truthy response run the
unprotected output pass; return the response. The `with` block ends the
span on every exit path. -/
def wrapCmd (recording : Bool) (attrOk : String → PyVal → Bool)
    (cmd : String) (wres : Except PyErr PyVal)
    (kwargs : List (String × PyVal)) : TraceResult :=
  let s0 := startSpan recording cmd
  let p := inputPhase attrOk s0 kwargs
  match wres with
  | .error e => { result := .error e, span := endSpan p.1, warnings := p.2 }
  | .ok v =>
      let q := outputPhase attrOk p.1 v
      match q.2 with
      | some e => { result := .error e, span := endSpan q.1, warnings := p.2 }
      | Option.none => { result := .ok v, span := endSpan q.1, warnings := p.2 }

/-- A callable as the wrapper sees it: either an original function (which
may or may not carry a `__wrapped__` attribute of its own, e.g. from
`functools.wraps`; its behaviour is a fixed outcome for the call at
hand), or the wrapt proxy installed by `wrap_function_wrapper` around an
inner callable with `_wrap_cmd(tracer, cmd)` as the wrapper. -/
inductive Callable where
  | original (wrappedAttr : Bool) (behavior : Except PyErr PyVal)
  | wrapt (cmd : String) (inner : Callable)

/-- `hasattr(c, "__wrapped__")`: wrapt proxies always expose
`__wrapped__`; originals only if they carry one for their own reasons. -/
def hasWrappedAttr : Callable → Bool
  | .original w _ => w
  | .wrapt _ _ => true

/-- The observable outcome of invoking a callable: the result delivered
to the caller, the spans created (in creation order), the warnings
logged, and how many times an original (unwrapped) callable ran. -/
structure CallOutcome where
  result : Except PyErr PyVal
  spans : List Span
  warnings : Nat
  origCalls : Nat

/-- Invoke a callable with the given keyword arguments. An original runs
its own behaviour, creating no span. A wrapt proxy runs the wrapper of
`_with_tracer_wrapper` (source lines 106–119): if the wrapped callable
already has `__wrapped__`, delegate straight through (no span);
otherwise run `_wrap_cmd` around the inner call. -/
def call (recording : Bool) (attrOk : String → PyVal → Bool)
    (kwargs : List (String × PyVal)) : Callable → CallOutcome
  | .original _ beh =>
      { result := beh, spans := [], warnings := 0, origCalls := 1 }
  | .wrapt cmd inner =>
      if hasWrappedAttr inner then call recording attrOk kwargs inner
      else
        let innerOut := call recording attrOk kwargs inner
        let tr := wrapCmd recording attrOk cmd innerOut.result kwargs
        { result := tr.result,
          spans := innerOut.spans ++ [tr.span],
          warnings := innerOut.warnings + tr.warnings,
          origCalls := innerOut.origCalls }

/-- The objects whose `create` entry points `_instrument` wraps (source
lines 63–68). -/
def OBJECTS : List String :=
  ["ChatCompletion", "Completion", "Embedding", "Image"]

/-- One pass of `OpenAIInstrumentor._instrument` over a single entry
point (source lines 168–173): wrap it with the tracer wrapper bound to
operation name "create". -/
def instrumentOnce (c : Callable) : Callable :=
  .wrapt "create" c

/-- The error, if any, that the output pass raises for a given truthy
response: a flattening error, else the first `set_attribute` rejection
over the flattened attributes. Falsy responses skip the pass. -/
def outputErr (attrOk : String → PyVal → Bool) (v : PyVal) : Option PyErr :=
  if truthy v then
    match getResponseAttributes v with
    | .error e => some e
    | .ok attrs => firstSetError attrOk attrs
  else Option.none

/-- What the caller of an intercepted operation receives, as a function
of the wrapped call outcome alone: the wrapped error unchanged, or the
wrapped value unchanged unless the unprotected output pass raises. -/
def wrappedThenOutput (attrOk : String → PyVal → Bool)
    (wres : Except PyErr PyVal) : Except PyErr PyVal :=
  match wres with
  | .error e => .error e
  | .ok v =>
      match outputErr attrOk v with
      | some e => .error e
      | Option.none => .ok v

/-- Stated from the words of the specification, for comparison with the
code: "that choice's text field if present else its message's content
field". Presence means the attribute exists on the choice; a present
text is used whatever its value. -/
def specChoiceMessage (c : PyVal) : Except PyErr PyVal :=
  match c with
  | .dict kvs =>
      match dictLookup kvs "text" with
      | some t => .ok t
      | Option.none =>
          match getattr c "message" with
          | .error e => .error e
          | .ok m => getattr m "content"
  | _ => .error (.attributeError "text")

/-- The per-choice message sequence the specification's words demand. -/
def specChoicesMessages (cs : List PyVal) : Except PyErr (List PyVal) :=
  mapExcept specChoiceMessage cs

/-- A heap of dict objects, to make mutation and aliasing observable:
references are numbers, `next` is the next fresh reference. -/
structure Heap where
  store : List (Nat × List (String × PyVal))
  next : Nat

/-- First-match lookup in a heap store. -/
def storeGet : List (Nat × List (String × PyVal)) → Nat →
    Option (List (String × PyVal))
  | [], _ => Option.none
  | (a, d) :: rest, r => if a = r then some d else storeGet rest r

/-- Dereference. -/
def heapGet (h : Heap) (r : Nat) : Option (List (String × PyVal)) :=
  storeGet h.store r

/-- Overwrite the object a reference points to (in-place mutation). -/
def heapSet (h : Heap) (r : Nat) (d : List (String × PyVal)) : Heap :=
  { h with store := (r, d) :: h.store }

/-- Allocate a fresh object (`response.copy()` allocates its result). -/
def heapAlloc (h : Heap) (d : List (String × PyVal)) : Nat × Heap :=
  (h.next, { store := (h.next, d) :: h.store, next := h.next + 1 })

/-- `_get_response_attributes` with its mutations explicit: `attributes
= response.copy()` allocates a fresh dict, each `attributes.pop(...)`
and `attributes.update(...)` writes back through the copy's reference,
and the caller's reference `r` is only ever read. Returns the final heap
and the reference to the attribute dict (or the raised error). -/
def flattenHeap (h0 : Heap) (r : Nat) : Heap × Except PyErr Nat :=
  match heapGet h0 r with
  | Option.none => (h0, .error (.other "invalid reference"))
  | some respD =>
      let alloc := heapAlloc h0 respD
      let ra := alloc.1
      let popChoices := dictPop respD "choices"
      let h2 := heapSet alloc.2 ra popChoices.2
      let popData := dictPop popChoices.2 "data"
      let h3 := heapSet h2 ra popData.2
      let popUsage := dictPop popData.2 "usage"
      let h4 := heapSet h3 ra popUsage.2
      match choicesPart popChoices.1 popUsage.2 with
      | .error e => (h4, .error e)
      | .ok d4 =>
          let h5 := heapSet h4 ra d4
          match dataPart popData.1 d4 with
          | .error e => (h5, .error e)
          | .ok d5 =>
              let h6 := heapSet h5 ra d5
              match usagePart popUsage.1 d5 with
              | .error e => (h6, .error e)
              | .ok d6 => (heapSet h6 ra d6, .ok ra)

/-- A backend that accepts every attribute pair. -/
def acceptAll : String → PyVal → Bool := fun _ _ => true

/-- A backend that rejects the attribute key "bad" and accepts all
others. -/
def rejectBad : String → PyVal → Bool := fun k _ => k != "bad"

/-- A choice whose `text` attribute is present but empty, with a
message whose content is "hi". -/
def choiceTextEmpty : PyVal :=
  .dict [("text", .str ""),
         ("message", .dict [("content", .str "hi")]),
         ("finish_reason", .str "stop")]

/-- A response whose single choice is `choiceTextEmpty`. -/
def respTextEmpty : PyVal :=
  .dict [("choices", .list [choiceTextEmpty])]

/-- An embedding-style response: one datum with an embedding and a null
url. -/
def respEmbedding : PyVal :=
  .dict [("data", .list [.dict [("embedding", .list [.int 1, .int 2]),
                                ("url", .none)]])]

/-- A usage-only response, the specification's usage example. -/
def respUsage : PyVal :=
  .dict [("usage", .dict [("prompt_tokens", .int 5),
                          ("total_tokens", .int 12)])]

/-- A plain truthy response with no `choices`, `data` or `usage`. -/
def respPlain : PyVal :=
  .dict [("id", .str "x")]

/-- A one-object heap holding the choices response at reference 0. -/
def heapResp : Heap :=
  { store := [(0, [("choices", .list [choiceTextEmpty])])], next := 1 }

/-! ## Lemmas about dictionaries, strings and heaps -/

theorem dictLookup_dictSet_self (d : List (String × PyVal)) (k : String)
    (v : PyVal) : dictLookup (dictSet d k v) k = some v := by
  induction d with
  | nil => simp [dictSet, dictLookup]
  | cons kv rest ih =>
      obtain ⟨k0, v0⟩ := kv
      by_cases hk : k0 = k
      · subst hk; simp [dictSet, dictLookup]
      · simp [dictSet, dictLookup, hk, ih]

theorem dictLookup_dictSet_ne (d : List (String × PyVal)) (k key : String)
    (v : PyVal) (h : k ≠ key) :
    dictLookup (dictSet d k v) key = dictLookup d key := by
  induction d with
  | nil => simp [dictSet, dictLookup, h]
  | cons kv rest ih =>
      obtain ⟨k0, v0⟩ := kv
      by_cases hk : k0 = k
      · subst hk; simp [dictSet, dictLookup, h]
      · simp [dictSet, dictLookup, hk, ih]

theorem dictLookup_dictUpdate_notMem (upds : List (String × PyVal)) :
    ∀ (d : List (String × PyVal)) (key : String),
    key ∉ upds.map Prod.fst →
    dictLookup (dictUpdate d upds) key = dictLookup d key := by
  induction upds with
  | nil => intro d key _; rfl
  | cons kv rest ih =>
      intro d key hmem
      obtain ⟨k0, v0⟩ := kv
      simp only [List.map_cons, List.mem_cons] at hmem
      push_neg at hmem
      have h1 : dictUpdate d ((k0, v0) :: rest) =
          dictUpdate (dictSet d k0 v0) rest := rfl
      rw [h1, ih (dictSet d k0 v0) key hmem.2,
        dictLookup_dictSet_ne _ _ _ _ (fun h => hmem.1 h.symm)]

theorem dictLookup_dictUpdate_mem (upds : List (String × PyVal)) :
    ∀ (d : List (String × PyVal)) (key : String) (v : PyVal),
    (upds.map Prod.fst).Nodup → (key, v) ∈ upds →
    dictLookup (dictUpdate d upds) key = some v := by
  induction upds with
  | nil => intro d key v _ hmem; cases hmem
  | cons kv rest ih =>
      intro d key v hnd hmem
      obtain ⟨k0, v0⟩ := kv
      simp only [List.map_cons, List.nodup_cons] at hnd
      have h1 : dictUpdate d ((k0, v0) :: rest) =
          dictUpdate (dictSet d k0 v0) rest := rfl
      rcases List.mem_cons.mp hmem with heq | hrest
      · obtain ⟨hk, hv⟩ := Prod.mk.injEq .. ▸ heq
        injection heq with hk hv
        subst hk; subst hv
        have hnot : key ∉ rest.map Prod.fst := hnd.1
        rw [h1, dictLookup_dictUpdate_notMem rest _ _ hnot,
          dictLookup_dictSet_self]
      · rw [h1]; exact ih _ _ _ hnd.2 hrest

theorem dictLookup_dictRemove_ne (d : List (String × PyVal))
    (rem key : String) (h : key ≠ rem) :
    dictLookup (dictRemove d rem) key = dictLookup d key := by
  induction d with
  | nil => rfl
  | cons kv rest ih =>
      obtain ⟨k0, v0⟩ := kv
      simp only [dictRemove] at ih ⊢
      simp only [ne_eq, decide_not] at ih
      rw [List.filter_cons]
      by_cases hk : k0 = rem
      · simp [hk, Ne.symm h, dictLookup, ih]
      · by_cases hkey : k0 = key
        · simp [hk, hkey, h, dictLookup]
        · simp [hk, hkey, dictLookup, ih]

theorem string_data_append (s t : String) :
    (s ++ t).data = s.data ++ t.data := by
  cases s; cases t; rfl

theorem usage_append_injective : Function.Injective (fun k => "usage." ++ k) := by
  intro a b h
  have hd := congrArg String.data h
  simp only [string_data_append] at hd
  have h2 := List.append_cancel_left hd
  cases a; cases b; exact congrArg String.mk h2

theorem usage_append_ne_prompt (k s : String) (hs : s.data.head? = some 'p') :
    "usage." ++ k ≠ s := by
  intro h
  have hd := congrArg String.data h
  rw [string_data_append] at hd
  have hu : "usage.".data = 'u' :: 's' :: 'a' :: 'g' :: 'e' :: '.' :: [] := rfl
  rw [hu] at hd
  rw [← hd] at hs
  simp at hs

theorem mapExcept_ok_length (f : PyVal → Except PyErr PyVal) :
    ∀ (xs ys : List PyVal), mapExcept f xs = .ok ys → ys.length = xs.length := by
  intro xs
  induction xs with
  | nil => intro ys h; simp [mapExcept] at h; simp [← h]
  | cons x rest ih =>
      intro ys h
      simp only [mapExcept] at h
      cases hf : f x with
      | error e => rw [hf] at h; cases h
      | ok y =>
          rw [hf] at h
          cases hm : mapExcept f rest with
          | error e => rw [hm] at h; cases h
          | ok ys0 =>
              rw [hm] at h
              injection h with h
              subst h
              simp [ih ys0 hm]

theorem mapExcept_ok_get (f : PyVal → Except PyErr PyVal) :
    ∀ (xs ys : List PyVal), mapExcept f xs = .ok ys →
    ∀ i, i < xs.length →
    f (xs.getD i .none) = .ok (ys.getD i .none) := by
  intro xs
  induction xs with
  | nil => intro ys _ i hi; cases hi
  | cons x rest ih =>
      intro ys h i hi
      simp only [mapExcept] at h
      cases hf : f x with
      | error e => rw [hf] at h; cases h
      | ok y =>
          rw [hf] at h
          cases hm : mapExcept f rest with
          | error e => rw [hm] at h; cases h
          | ok ys0 =>
              rw [hm] at h
              injection h with h
              subst h
              cases i with
              | zero => simpa using hf
              | succ j =>
                  simp only [List.getD_cons_succ]
                  exact ih ys0 hm j (by simpa using hi)

theorem heapGet_heapSet_self (h : Heap) (r : Nat)
    (d : List (String × PyVal)) : heapGet (heapSet h r d) r = some d := by
  simp [heapGet, heapSet, storeGet]

theorem heapGet_heapSet_ne (h : Heap) (a r : Nat)
    (d : List (String × PyVal)) (hne : a ≠ r) :
    heapGet (heapSet h a d) r = heapGet h r := by
  simp [heapGet, heapSet, storeGet, hne]

/-! ## Lemmas about the span phases and the tracer -/

theorem setAttrsLoop_preserves (attrOk : String → PyVal → Bool)
    (l : List (String × PyVal)) : ∀ s : Span,
    (setAttrsLoop attrOk s l).1.name = s.name ∧
    (setAttrsLoop attrOk s l).1.kind = s.kind ∧
    (setAttrsLoop attrOk s l).1.status = s.status ∧
    (setAttrsLoop attrOk s l).1.recording = s.recording ∧
    (setAttrsLoop attrOk s l).1.ended = s.ended := by
  induction l with
  | nil => intro s; exact ⟨rfl, rfl, rfl, rfl, rfl⟩
  | cons kv rest ih =>
      intro s
      obtain ⟨k, v⟩ := kv
      cases hk : attrOk k v with
      | true => simpa [setAttrsLoop, setAttribute, hk] using ih _
      | false => simp [setAttrsLoop, setAttribute, hk]

theorem setAttrsLoop_snd_eq (attrOk : String → PyVal → Bool)
    (l : List (String × PyVal)) : ∀ s : Span,
    (setAttrsLoop attrOk s l).2 = firstSetError attrOk l := by
  induction l with
  | nil => intro s; rfl
  | cons kv rest ih =>
      intro s
      obtain ⟨k, v⟩ := kv
      cases hk : attrOk k v with
      | true => simpa [setAttrsLoop, setAttribute, firstSetError, hk] using ih _
      | false => simp [setAttrsLoop, setAttribute, firstSetError, hk]

theorem inputPhase_preserves (attrOk : String → PyVal → Bool) (s : Span)
    (kwargs : List (String × PyVal)) :
    (inputPhase attrOk s kwargs).1.name = s.name ∧
    (inputPhase attrOk s kwargs).1.kind = s.kind ∧
    (inputPhase attrOk s kwargs).1.status = s.status ∧
    (inputPhase attrOk s kwargs).1.recording = s.recording ∧
    (inputPhase attrOk s kwargs).1.ended = s.ended := by
  unfold inputPhase
  by_cases hr : s.recording
  · by_cases he : kwargs.isEmpty
    · simp [hr, he]
    · simpa [hr, he] using setAttrsLoop_preserves attrOk kwargs s
  · simp [hr]

theorem inputPhase_snd_eq (attrOk : String → PyVal → Bool) (s : Span)
    (kwargs : List (String × PyVal)) :
    (inputPhase attrOk s kwargs).2 =
      if s.recording then
        if kwargs.isEmpty then 0
        else if (firstSetError attrOk kwargs).isSome then 1 else 0
      else 0 := by
  unfold inputPhase
  by_cases hr : s.recording
  · by_cases he : kwargs.isEmpty
    · simp [hr, he]
    · simp [hr, he, setAttrsLoop_snd_eq]
  · simp [hr]

theorem outputPhase_snd_eq (attrOk : String → PyVal → Bool) (s : Span)
    (v : PyVal) : (outputPhase attrOk s v).2 = outputErr attrOk v := by
  unfold outputPhase outputErr
  by_cases ht : truthy v
  · cases hg : getResponseAttributes v with
    | error e => simp [ht, hg]
    | ok attrs =>
        cases hf : firstSetError attrOk attrs with
        | none => simp [ht, hg, setAttrsLoop_snd_eq, hf]
        | some e => simp [ht, hg, setAttrsLoop_snd_eq, hf]
  · simp [ht]

theorem outputPhase_preserves (attrOk : String → PyVal → Bool) (s : Span)
    (v : PyVal) :
    (outputPhase attrOk s v).1.name = s.name ∧
    (outputPhase attrOk s v).1.kind = s.kind ∧
    (outputPhase attrOk s v).1.recording = s.recording ∧
    (outputPhase attrOk s v).1.ended = s.ended := by
  unfold outputPhase
  by_cases ht : truthy v
  · cases hg : getResponseAttributes v with
    | error e => simp [ht, hg]
    | ok attrs =>
        have hp := setAttrsLoop_preserves attrOk attrs s
        cases hf : (setAttrsLoop attrOk s attrs).2 with
        | none => simp only [ht, hg, if_true, hf]; exact
            ⟨hp.1, hp.2.1, hp.2.2.2.1, hp.2.2.2.2⟩
        | some e => simp only [ht, hg, if_true, hf]; exact
            ⟨hp.1, hp.2.1, hp.2.2.2.1, hp.2.2.2.2⟩
  · simp [ht]

theorem outputPhase_falsy (attrOk : String → PyVal → Bool) (s : Span)
    (v : PyVal) (h : truthy v = false) :
    outputPhase attrOk s v = (s, Option.none) := by
  simp [outputPhase, h]

theorem outputPhase_status_of_err (attrOk : String → PyVal → Bool) (s : Span)
    (v : PyVal) (h : (outputPhase attrOk s v).2.isSome) :
    (outputPhase attrOk s v).1.status = s.status := by
  unfold outputPhase at h ⊢
  by_cases ht : truthy v
  · cases hg : getResponseAttributes v with
    | error e => simp [ht, hg]
    | ok attrs =>
        have hp := setAttrsLoop_preserves attrOk attrs s
        cases hf : (setAttrsLoop attrOk s attrs).2 with
        | none => rw [ht] at h; simp only [if_true, hg, hf] at h; cases h
        | some e => simp only [ht, hg, if_true, hf]; exact hp.2.2.1
  · simp [ht]

theorem wrapCmd_result (rec : Bool) (attrOk : String → PyVal → Bool)
    (cmd : String) (wres : Except PyErr PyVal)
    (kwargs : List (String × PyVal)) :
    (wrapCmd rec attrOk cmd wres kwargs).result =
      wrappedThenOutput attrOk wres := by
  cases wres with
  | error e => rfl
  | ok v =>
      simp only [wrapCmd, wrappedThenOutput, outputPhase_snd_eq]
      cases ho : outputErr attrOk v <;> simp [ho]

theorem wrapCmd_span_basic (rec : Bool) (attrOk : String → PyVal → Bool)
    (cmd : String) (wres : Except PyErr PyVal)
    (kwargs : List (String × PyVal)) :
    (wrapCmd rec attrOk cmd wres kwargs).span.name = cmd ∧
    (wrapCmd rec attrOk cmd wres kwargs).span.kind = PySpanKind.client ∧
    (wrapCmd rec attrOk cmd wres kwargs).span.ended = true := by
  have hp := inputPhase_preserves attrOk (startSpan rec cmd) kwargs
  cases wres with
  | error e =>
      simp only [wrapCmd, endSpan]
      exact ⟨hp.1, hp.2.1, trivial⟩
  | ok v =>
      have hq := outputPhase_preserves attrOk
        (inputPhase attrOk (startSpan rec cmd) kwargs).1 v
      simp only [wrapCmd]
      split <;> simp only [endSpan] <;>
        exact ⟨(hq.1.trans hp.1 :), (hq.2.1.trans hp.2.1 :), trivial⟩

theorem wrapCmd_warnings (rec : Bool) (attrOk : String → PyVal → Bool)
    (cmd : String) (wres : Except PyErr PyVal)
    (kwargs : List (String × PyVal)) :
    (wrapCmd rec attrOk cmd wres kwargs).warnings =
      (inputPhase attrOk (startSpan rec cmd) kwargs).2 := by
  cases wres with
  | error e => rfl
  | ok v => simp only [wrapCmd]; split <;> rfl

theorem wrapCmd_falsy (rec : Bool) (attrOk : String → PyVal → Bool)
    (cmd : String) (v : PyVal) (kwargs : List (String × PyVal))
    (h : truthy v = false) :
    wrapCmd rec attrOk cmd (.ok v) kwargs =
      { result := .ok v,
        span := endSpan (inputPhase attrOk (startSpan rec cmd) kwargs).1,
        warnings := (inputPhase attrOk (startSpan rec cmd) kwargs).2 } := by
  simp [wrapCmd, outputPhase_falsy _ _ _ h]

theorem wrapCmd_status_ok (rec : Bool) (attrOk : String → PyVal → Bool)
    (cmd : String) (wres : Except PyErr PyVal)
    (kwargs : List (String × PyVal))
    (h : (wrapCmd rec attrOk cmd wres kwargs).span.status = .ok) :
    ∃ v, wres = .ok v ∧ truthy v = true := by
  have hp := inputPhase_preserves attrOk (startSpan rec cmd) kwargs
  cases wres with
  | error e =>
      simp only [wrapCmd, endSpan] at h
      rw [hp.2.2.1] at h
      cases h
  | ok v =>
      cases ht : truthy v with
      | true => exact ⟨v, rfl, ht⟩
      | false =>
          rw [wrapCmd_falsy rec attrOk cmd v kwargs ht] at h
          simp only [endSpan] at h
          rw [hp.2.2.1] at h
          cases h

theorem call_instrumented (rec : Bool) (attrOk : String → PyVal → Bool)
    (kwargs : List (String × PyVal)) (beh : Except PyErr PyVal) :
    call rec attrOk kwargs (instrumentOnce (.original false beh)) =
      { result := (wrapCmd rec attrOk "create" beh kwargs).result,
        spans := [(wrapCmd rec attrOk "create" beh kwargs).span],
        warnings := (wrapCmd rec attrOk "create" beh kwargs).warnings,
        origCalls := 1 } := by
  simp [call, instrumentOnce, hasWrappedAttr]

theorem dataPart_lookup_preserved (dataOpt : Option PyVal)
    (acc acc2 : List (String × PyVal)) (key : String)
    (h1 : key ≠ "prompt_response.embedding")
    (h2 : key ≠ "prompt_response.image_url")
    (h : dataPart dataOpt acc = .ok acc2) :
    dictLookup acc2 key = dictLookup acc key := by
  unfold dataPart at h
  split at h
  · split at h
    · cases h
    · split at h
      · cases h
      · split at h
        · cases h
        · injection h with h
          subst h
          apply dictLookup_dictUpdate_notMem
          simp [h1, h2]
  · injection h with h
    subst h
    rfl

theorem usagePart_lookup_preserved (usageOpt : Option PyVal)
    (acc acc2 : List (String × PyVal)) (key : String)
    (hp : key.data.head? = some 'p')
    (h : usagePart usageOpt acc = .ok acc2) :
    dictLookup acc2 key = dictLookup acc key := by
  unfold usagePart at h
  split at h
  · split at h
    · injection h with h
      subst h
      apply dictLookup_dictUpdate_notMem
      intro hmem
      simp only [List.map_map, List.mem_map, Function.comp] at hmem
      obtain ⟨kv, _, heq⟩ := hmem
      exact usage_append_ne_prompt kv.1 key hp heq
    · cases h
  · injection h with h
    subst h
    rfl

theorem getResponseAttributes_decompose (kvs attrs : List (String × PyVal))
    (h : getResponseAttributes (.dict kvs) = .ok attrs) :
    ∃ a4 a5,
      choicesPart (dictLookup kvs "choices")
        (dictRemove (dictRemove (dictRemove kvs "choices") "data") "usage")
        = .ok a4 ∧
      dataPart (dictLookup (dictRemove kvs "choices") "data") a4 = .ok a5 ∧
      usagePart (dictLookup (dictRemove (dictRemove kvs "choices") "data")
        "usage") a5 = .ok attrs := by
  simp only [getResponseAttributes, dictPop] at h
  cases hc : choicesPart (dictLookup kvs "choices")
      (dictRemove (dictRemove (dictRemove kvs "choices") "data") "usage") with
  | error e => rw [hc] at h; simp only at h; cases h
  | ok a4 =>
      rw [hc] at h
      simp only at h
      cases hd : dataPart (dictLookup (dictRemove kvs "choices") "data") a4 with
      | error e => rw [hd] at h; simp only at h; cases h
      | ok a5 =>
          rw [hd] at h
          simp only at h
          exact ⟨a4, a5, rfl, hd, h⟩

theorem choicesPart_ok (cs : List PyVal) (acc : List (String × PyVal))
    (msgs fins : List PyVal) (hne : cs ≠ [])
    (hmsgs : mapExcept flattenChoice cs = .ok msgs)
    (hfins : mapExcept (fun c => getattr c "finish_reason") cs = .ok fins) :
    choicesPart (some (.list cs)) acc =
      .ok (dictUpdate acc
        [("prompt_response.messages", .list msgs),
         ("prompt_response.finish_reason", .list fins)]) := by
  have hcs : cs.isEmpty = false := by
    cases cs
    · exact absurd rfl hne
    · rfl
  unfold choicesPart
  simp only [popTruthy, truthy, hcs, Bool.not_false, if_true,
    Option.getD_some, pyIter]
  rw [hmsgs]
  simp only
  rw [hfins]

theorem dataPart_ok (ds : List PyVal) (acc : List (String × PyVal))
    (embs urls : List PyVal) (hne : ds ≠ [])
    (hembs : mapExcept (fun d => getattr d "embedding") ds = .ok embs)
    (hurls : mapExcept (fun d => getattr d "url") ds = .ok urls) :
    dataPart (some (.list ds)) acc =
      .ok (dictUpdate acc
        [("prompt_response.embedding", .list embs),
         ("prompt_response.image_url", .list urls)]) := by
  have hds : ds.isEmpty = false := by
    cases ds
    · exact absurd rfl hne
    · rfl
  unfold dataPart
  simp only [popTruthy, truthy, hds, Bool.not_false, if_true,
    Option.getD_some, pyIter]
  rw [hembs]
  simp only
  rw [hurls]

theorem usagePart_ok (items : List (String × PyVal))
    (acc : List (String × PyVal)) (hne : items ≠ []) :
    usagePart (some (.dict items)) acc =
      .ok (dictUpdate acc
        (items.map (fun kv => ("usage." ++ kv.1, kv.2)))) := by
  have hit : items.isEmpty = false := by
    cases items
    · exact absurd rfl hne
    · rfl
  unfold usagePart
  simp only [popTruthy, truthy, hit, Bool.not_false, if_true,
    Option.getD_some]

/-! ## The claims -/

/-- C1: Pass-through law — the wrapped call's own error propagates to the
caller unchanged, and whenever the instrumented call returns a value,
that value is exactly the wrapped call's value (never altered or
wrapped); instrumentation never substitutes a different result. -/
theorem C1_pass_through (rec : Bool) (attrOk : String → PyVal → Bool)
    (kwargs : List (String × PyVal)) (beh : Except PyErr PyVal) :
    (∀ e, beh = .error e →
      (call rec attrOk kwargs (instrumentOnce (.original false beh))).result
        = .error e) ∧
    (∀ v w, beh = .ok v →
      (call rec attrOk kwargs (instrumentOnce (.original false beh))).result
        = .ok w → w = v) := by
  simp only [call_instrumented]
  constructor
  · intro e he; subst he; rw [wrapCmd_result]; rfl
  · intro v w hv hw
    subst hv
    rw [wrapCmd_result] at hw
    simp only [wrappedThenOutput] at hw
    cases ho : outputErr attrOk v with
    | some e => rw [ho] at hw; cases hw
    | none => rw [ho] at hw; injection hw with h; exact h.symm

/-- Witness for C1: a concrete erroring wrapped call propagates its error
unchanged through the instrumented call. -/
theorem C1_pass_through_witness :
    (call false acceptAll [] (instrumentOnce
      (.original false (.error (.other "boom"))))).result
      = .error (.other "boom") :=
  (C1_pass_through false acceptAll [] (.error (.other "boom"))).1
    (.other "boom") rfl

/-- C2: Span-per-call invariant — invoking an instrumented operation
produces exactly one span, named "create" with kind CLIENT, and that
span is ended, on both exit paths (the wrapped outcome `beh` ranges over
returns and raises). -/
theorem C2_span_per_call (rec : Bool) (attrOk : String → PyVal → Bool)
    (kwargs : List (String × PyVal)) (beh : Except PyErr PyVal) :
    ∃ s : Span,
      (call rec attrOk kwargs (instrumentOnce (.original false beh))).spans
        = [s] ∧
      s.name = "create" ∧ s.kind = .client ∧ s.ended = true := by
  have hb := wrapCmd_span_basic rec attrOk "create" beh kwargs
  exact ⟨(wrapCmd rec attrOk "create" beh kwargs).span,
    by simp only [call_instrumented], hb.1, hb.2.1, hb.2.2⟩

/-- C3: Asymmetric failure isolation — the caller-visible result is a
function of the wrapped outcome and the output pass alone (so a failure
while recording input kwargs, or a skipped pass on a non-recording span,
never propagates and never changes the result, nor does it prevent the
wrapped callable from running — the instrumented call always invokes the
original exactly once); a flattening error on a truthy response
propagates to the caller; and a failing input pass logs exactly one
warning. -/
theorem C3_failure_isolation (rec : Bool) (attrOk : String → PyVal → Bool)
    (cmd : String) (wres : Except PyErr PyVal)
    (kwargs : List (String × PyVal)) :
    (wrapCmd rec attrOk cmd wres kwargs).result =
      wrappedThenOutput attrOk wres ∧
    (∀ v e, wres = .ok v → truthy v = true →
      getResponseAttributes v = .error e →
      (wrapCmd rec attrOk cmd wres kwargs).result = .error e) ∧
    (∀ beh, (call rec attrOk kwargs
      (instrumentOnce (.original false beh))).origCalls = 1) ∧
    (rec = true → kwargs ≠ [] → (firstSetError attrOk kwargs).isSome →
      (wrapCmd rec attrOk cmd wres kwargs).warnings = 1) := by
  refine ⟨wrapCmd_result .., ?_, fun beh => by rw [call_instrumented], ?_⟩
  · intro v e hv ht hg
    subst hv
    rw [wrapCmd_result]
    simp [wrappedThenOutput, outputErr, ht, hg]
  · intro hrec hne hsome
    rw [wrapCmd_warnings, inputPhase_snd_eq]
    cases kwargs with
    | nil => exact absurd rfl hne
    | cons a l =>
        subst hrec
        simp [startSpan, hsome]

/-- Witness for C3: with a backend that rejects the key "bad", a call
with kwarg "bad" logs one warning and still returns the wrapped value
unchanged. -/
theorem C3_failure_isolation_witness :
    (wrapCmd true rejectBad "create" (.ok respPlain)
      [("bad", .none)]).warnings = 1 ∧
    (wrapCmd true rejectBad "create" (.ok respPlain)
      [("bad", .none)]).result = .ok respPlain := by
  have h := C3_failure_isolation true rejectBad "create" (.ok respPlain)
    [("bad", .none)]
  refine ⟨h.2.2.2 rfl (by simp) (by rfl), ?_⟩
  rw [h.1]; rfl

/-- C4 counterexample: a choice whose `text` field is present (the empty
string) and whose message content is "hi". The specification's words
("text field if present") demand the entry "", but the code's
`choice.text or choice.message.content` yields "hi": the claim as
stated is false at this input. -/
theorem C4_choices_counterexample :
    specChoicesMessages [choiceTextEmpty] = .ok [PyVal.str ""] ∧
    getResponseAttributes respTextEmpty =
      .ok [("prompt_response.messages", PyVal.list [PyVal.str "hi"]),
           ("prompt_response.finish_reason", PyVal.list [PyVal.str "stop"])] ∧
    PyVal.list [PyVal.str "hi"] ≠ PyVal.list [PyVal.str ""] := by
  refine ⟨rfl, rfl, ?_⟩
  intro h
  injection h with h
  injection h with h1 _
  injection h1 with h1
  exact absurd h1 (by decide)

/-- C4 (amended): for every response whose `choices` field is a
non-empty list, when the per-choice accesses succeed the flattened map
contains `prompt_response.messages` = the ordered sequence, one entry
per choice, of that choice's text field if TRUTHY (non-null, non-empty)
else its message's content field, and `prompt_response.finish_reason` =
the ordered sequence of each choice's finish-reason field. -/
theorem C4_choices_flattening (kvs : List (String × PyVal))
    (cs msgs fins : List PyVal) (attrs : List (String × PyVal))
    (hchoices : dictLookup kvs "choices" = some (.list cs))
    (hne : cs ≠ [])
    (hmsgs : mapExcept flattenChoice cs = .ok msgs)
    (hfins : mapExcept (fun c => getattr c "finish_reason") cs = .ok fins)
    (hattrs : getResponseAttributes (.dict kvs) = .ok attrs) :
    dictLookup attrs "prompt_response.messages" = some (.list msgs) ∧
    dictLookup attrs "prompt_response.finish_reason" = some (.list fins) ∧
    msgs.length = cs.length ∧ fins.length = cs.length ∧
    (∀ i t, i < cs.length → getattr (cs.getD i .none) "text" = .ok t →
      (truthy t = true → msgs.getD i .none = t) ∧
      (truthy t = false → ∀ m w,
        getattr (cs.getD i .none) "message" = .ok m →
        getattr m "content" = .ok w → msgs.getD i .none = w)) ∧
    (∀ i r, i < cs.length →
      getattr (cs.getD i .none) "finish_reason" = .ok r →
      fins.getD i .none = r) := by
  obtain ⟨a4, a5, hc, hd, hu⟩ := getResponseAttributes_decompose kvs attrs hattrs
  rw [hchoices, choicesPart_ok cs _ msgs fins hne hmsgs hfins] at hc
  injection hc with hc
  have hum : dictLookup attrs "prompt_response.messages" =
      dictLookup a5 "prompt_response.messages" :=
    usagePart_lookup_preserved _ _ _ _ rfl hu
  have huf : dictLookup attrs "prompt_response.finish_reason" =
      dictLookup a5 "prompt_response.finish_reason" :=
    usagePart_lookup_preserved _ _ _ _ rfl hu
  have hdm : dictLookup a5 "prompt_response.messages" =
      dictLookup a4 "prompt_response.messages" :=
    dataPart_lookup_preserved _ _ _ _ (by decide) (by decide) hd
  have hdf : dictLookup a5 "prompt_response.finish_reason" =
      dictLookup a4 "prompt_response.finish_reason" :=
    dataPart_lookup_preserved _ _ _ _ (by decide) (by decide) hd
  refine ⟨?_, ?_, mapExcept_ok_length _ _ _ hmsgs,
    mapExcept_ok_length _ _ _ hfins, ?_, ?_⟩
  · rw [hum, hdm, ← hc]
    exact dictLookup_dictUpdate_mem _ _ _ _ (by simp) (by simp)
  · rw [huf, hdf, ← hc]
    exact dictLookup_dictUpdate_mem _ _ _ _ (by simp) (by simp)
  · intro i t hi ht
    have hg := mapExcept_ok_get flattenChoice cs msgs hmsgs i hi
    unfold flattenChoice at hg
    rw [ht] at hg
    simp only at hg
    constructor
    · intro htr
      rw [htr] at hg
      simp only [if_true] at hg
      injection hg with hg
      exact hg.symm
    · intro htr m w hm hw
      rw [htr] at hg
      simp only [Bool.false_eq_true, if_false] at hg
      rw [hm] at hg
      simp only at hg
      exact (Except.ok.injEq .. ▸ (hw.symm.trans hg) :).symm
  · intro i r hi hr
    have hg := mapExcept_ok_get (fun c => getattr c "finish_reason")
      cs fins hfins i hi
    simp only at hg
    have := hr.symm.trans hg
    injection this with h
    exact h.symm

/-- Witness for C4 (amended): at the counterexample response, the
flattened map holds the truthy-text-else-content sequence. -/
theorem C4_choices_flattening_witness :
    dictLookup [("prompt_response.messages", PyVal.list [PyVal.str "hi"]),
      ("prompt_response.finish_reason", PyVal.list [PyVal.str "stop"])]
      "prompt_response.messages" = some (PyVal.list [PyVal.str "hi"]) := by
  have h := C4_choices_flattening [("choices", PyVal.list [choiceTextEmpty])]
    [choiceTextEmpty] [PyVal.str "hi"] [PyVal.str "stop"]
    [("prompt_response.messages", PyVal.list [PyVal.str "hi"]),
     ("prompt_response.finish_reason", PyVal.list [PyVal.str "stop"])]
    rfl (List.cons_ne_nil _ _) rfl rfl rfl
  exact h.1

/-- C5: Data flattening law — for every response whose `data` field is a
non-empty list, when the per-datum accesses succeed the flattened map
contains BOTH `prompt_response.embedding` = the ordered sequence of each
datum's embedding field AND `prompt_response.image_url` = the ordered
sequence of each datum's url field, whatever the operation type (the
witness uses a datum whose url is null). -/
theorem C5_data_flattening (kvs : List (String × PyVal))
    (ds embs urls : List PyVal) (attrs : List (String × PyVal))
    (hdata : dictLookup kvs "data" = some (.list ds))
    (hne : ds ≠ [])
    (hembs : mapExcept (fun d => getattr d "embedding") ds = .ok embs)
    (hurls : mapExcept (fun d => getattr d "url") ds = .ok urls)
    (hattrs : getResponseAttributes (.dict kvs) = .ok attrs) :
    dictLookup attrs "prompt_response.embedding" = some (.list embs) ∧
    dictLookup attrs "prompt_response.image_url" = some (.list urls) ∧
    embs.length = ds.length ∧ urls.length = ds.length ∧
    (∀ i x, i < ds.length → getattr (ds.getD i .none) "embedding" = .ok x →
      embs.getD i .none = x) ∧
    (∀ i x, i < ds.length → getattr (ds.getD i .none) "url" = .ok x →
      urls.getD i .none = x) := by
  obtain ⟨a4, a5, hc, hd, hu⟩ := getResponseAttributes_decompose kvs attrs hattrs
  have hdata2 : dictLookup (dictRemove kvs "choices") "data"
      = some (.list ds) := by
    rw [dictLookup_dictRemove_ne _ _ _ (by decide)]
    exact hdata
  rw [hdata2, dataPart_ok ds _ embs urls hne hembs hurls] at hd
  injection hd with hd
  have hue : dictLookup attrs "prompt_response.embedding" =
      dictLookup a5 "prompt_response.embedding" :=
    usagePart_lookup_preserved _ _ _ _ rfl hu
  have huu : dictLookup attrs "prompt_response.image_url" =
      dictLookup a5 "prompt_response.image_url" :=
    usagePart_lookup_preserved _ _ _ _ rfl hu
  refine ⟨?_, ?_, mapExcept_ok_length _ _ _ hembs,
    mapExcept_ok_length _ _ _ hurls, ?_, ?_⟩
  · rw [hue, ← hd]
    exact dictLookup_dictUpdate_mem _ _ _ _ (by simp) (by simp)
  · rw [huu, ← hd]
    exact dictLookup_dictUpdate_mem _ _ _ _ (by simp) (by simp)
  · intro i x hi hx
    have hg := mapExcept_ok_get (fun d => getattr d "embedding")
      ds embs hembs i hi
    simp only at hg
    have := hx.symm.trans hg
    injection this with h
    exact h.symm
  · intro i x hi hx
    have hg := mapExcept_ok_get (fun d => getattr d "url")
      ds urls hurls i hi
    simp only at hg
    have := hx.symm.trans hg
    injection this with h
    exact h.symm

/-- Witness for C5: an embedding response whose datum has a null url
still gets both sequences, the url sequence holding null. -/
theorem C5_data_flattening_witness :
    dictLookup [("prompt_response.embedding",
        PyVal.list [PyVal.list [PyVal.int 1, PyVal.int 2]]),
      ("prompt_response.image_url", PyVal.list [PyVal.none])]
      "prompt_response.image_url" = some (PyVal.list [PyVal.none]) := by
  have h := C5_data_flattening
    [("data", PyVal.list [PyVal.dict
      [("embedding", PyVal.list [PyVal.int 1, PyVal.int 2]),
       ("url", PyVal.none)]])]
    [PyVal.dict [("embedding", PyVal.list [PyVal.int 1, PyVal.int 2]),
       ("url", PyVal.none)]]
    [PyVal.list [PyVal.int 1, PyVal.int 2]] [PyVal.none]
    [("prompt_response.embedding",
        PyVal.list [PyVal.list [PyVal.int 1, PyVal.int 2]]),
      ("prompt_response.image_url", PyVal.list [PyVal.none])]
    rfl (List.cons_ne_nil _ _) rfl rfl rfl
  exact h.2.1

/-- C6: Usage flattening law — for every response whose `usage` field is
a mapping, each key/value pair of it appears in the flattened map as a
top-level attribute `usage.<key>` with the unchanged value. -/
theorem C6_usage_flattening (kvs usageKvs : List (String × PyVal))
    (attrs : List (String × PyVal)) (k : String) (v : PyVal)
    (husage : dictLookup kvs "usage" = some (.dict usageKvs))
    (hnodup : (usageKvs.map Prod.fst).Nodup)
    (hkv : (k, v) ∈ usageKvs)
    (hattrs : getResponseAttributes (.dict kvs) = .ok attrs) :
    dictLookup attrs ("usage." ++ k) = some v := by
  obtain ⟨a4, a5, hc, hd, hu⟩ := getResponseAttributes_decompose kvs attrs hattrs
  have husage2 : dictLookup (dictRemove (dictRemove kvs "choices") "data")
      "usage" = some (.dict usageKvs) := by
    rw [dictLookup_dictRemove_ne _ _ _ (by decide),
      dictLookup_dictRemove_ne _ _ _ (by decide)]
    exact husage
  have hne : usageKvs ≠ [] := by
    intro hempty
    rw [hempty] at hkv
    cases hkv
  rw [husage2, usagePart_ok usageKvs _ hne] at hu
  injection hu with hu
  rw [← hu]
  apply dictLookup_dictUpdate_mem
  · have hmap : (usageKvs.map
        (fun kv => ("usage." ++ kv.1, kv.2))).map Prod.fst =
        (usageKvs.map Prod.fst).map (fun s => "usage." ++ s) := by
      simp [List.map_map]
    rw [hmap]
    exact hnodup.map usage_append_injective
  · exact List.mem_map_of_mem _ hkv

/-- Witness for C6: the specification's usage example. -/
theorem C6_usage_flattening_witness :
    dictLookup [("usage.prompt_tokens", PyVal.int 5),
      ("usage.total_tokens", PyVal.int 12)]
      ("usage." ++ "prompt_tokens") = some (PyVal.int 5) :=
  C6_usage_flattening
    [("usage", PyVal.dict [("prompt_tokens", PyVal.int 5),
      ("total_tokens", PyVal.int 12)])]
    [("prompt_tokens", PyVal.int 5), ("total_tokens", PyVal.int 12)]
    [("usage.prompt_tokens", PyVal.int 5),
      ("usage.total_tokens", PyVal.int 12)]
    "prompt_tokens" (PyVal.int 5)
    rfl (by simp) (List.mem_cons_self _ _) rfl

/-- C7: Double-wrap idempotence — installing the wrapper twice is
observationally identical to installing it once (the outer wrapper
detects `__wrapped__` on the inner wrapt proxy and delegates straight
through), and a call through the doubly-installed chain still creates
exactly one span. -/
theorem C7_double_wrap (rec : Bool) (attrOk : String → PyVal → Bool)
    (kwargs : List (String × PyVal)) (beh : Except PyErr PyVal) :
    call rec attrOk kwargs
        (instrumentOnce (instrumentOnce (.original false beh))) =
      call rec attrOk kwargs (instrumentOnce (.original false beh)) ∧
    (call rec attrOk kwargs
        (instrumentOnce (instrumentOnce (.original false beh)))).spans.length
      = 1 := by
  have h : call rec attrOk kwargs
      (instrumentOnce (instrumentOnce (.original false beh))) =
      call rec attrOk kwargs (instrumentOnce (.original false beh)) := rfl
  refine ⟨h, ?_⟩
  rw [h, call_instrumented]
  rfl

/-- C8: Flattening frame property — `_get_response_attributes` run with
its mutations explicit against a heap never changes the object the
caller's reference `r` points to: `choices`, `data` and `usage` are
popped only from the freshly allocated copy. Moreover the attribute
dict it returns (or the error it raises) is exactly the pure
flattening of the caller's unchanged response. -/
theorem C8_no_mutation (h0 : Heap) (r : Nat) (respD : List (String × PyVal))
    (hr : heapGet h0 r = some respD) (hlt : r < h0.next) :
    heapGet (flattenHeap h0 r).1 r = some respD ∧
    (∀ e, (flattenHeap h0 r).2 = .error e →
      getResponseAttributes (.dict respD) = .error e) ∧
    (∀ ra, (flattenHeap h0 r).2 = .ok ra →
      ∃ attrs, getResponseAttributes (.dict respD) = .ok attrs ∧
        heapGet (flattenHeap h0 r).1 ra = some attrs) := by
  have hne : h0.next ≠ r := by
    intro h
    rw [h] at hlt
    exact lt_irrefl r hlt
  have hr2 : storeGet h0.store r = some respD := hr
  simp only [flattenHeap, hr, heapAlloc, getResponseAttributes, dictPop]
  cases hc : choicesPart (dictLookup respD "choices")
      (dictRemove (dictRemove (dictRemove respD "choices") "data") "usage") with
  | error e =>
      simp only []
      refine ⟨?_, ?_, ?_⟩
      · simp [heapGet_heapSet_ne, hne, heapGet, storeGet, hr2]
      · intro e2 he2
        injection he2 with he2
        rw [he2]
      · intro ra hra
        cases hra
  | ok a4 =>
      simp only []
      cases hd : dataPart (dictLookup (dictRemove respD "choices") "data")
          a4 with
      | error e =>
          simp only []
          refine ⟨?_, ?_, ?_⟩
          · simp [heapGet_heapSet_ne, hne, heapGet, storeGet, hr2]
          · intro e2 he2
            injection he2 with he2
            rw [he2]
          · intro ra hra
            cases hra
      | ok a5 =>
          simp only []
          cases hu : usagePart
              (dictLookup (dictRemove (dictRemove respD "choices") "data")
                "usage") a5 with
          | error e =>
              simp only []
              refine ⟨?_, ?_, ?_⟩
              · simp [heapGet_heapSet_ne, hne, heapGet, storeGet, hr2]
              · intro e2 he2
                injection he2 with he2
                rw [he2]
              · intro ra hra
                cases hra
          | ok a6 =>
              simp only []
              refine ⟨?_, ?_, ?_⟩
              · simp [heapGet_heapSet_ne, hne, heapGet, storeGet, hr2]
              · intro e2 he2
                cases he2
              · intro ra hra
                injection hra with hra
                subst hra
                exact ⟨a6, rfl, heapGet_heapSet_self _ _ _⟩

/-- Witness for C8: a concrete one-object heap; after flattening, the
caller's response still holds its `choices` field. -/
theorem C8_no_mutation_witness :
    heapGet (flattenHeap heapResp 0).1 0 =
      some [("choices", PyVal.list [choiceTextEmpty])] :=
  (C8_no_mutation heapResp 0 [("choices", PyVal.list [choiceTextEmpty])]
    rfl (by decide)).1

/-- C9: Empty-result path — when the wrapped call returns a falsy result,
the span carries exactly the attributes of the input pass (no output
attributes), is still ended, and its status stays UNSET; and the status
is OK only when a truthy result was returned. -/
theorem C9_empty_result (rec : Bool) (attrOk : String → PyVal → Bool)
    (cmd : String) (kwargs : List (String × PyVal)) (v : PyVal)
    (wres : Except PyErr PyVal) :
    (truthy v = false →
      (wrapCmd rec attrOk cmd (.ok v) kwargs).span.attributes =
        (inputPhase attrOk (startSpan rec cmd) kwargs).1.attributes ∧
      (wrapCmd rec attrOk cmd (.ok v) kwargs).span.ended = true ∧
      (wrapCmd rec attrOk cmd (.ok v) kwargs).span.status = .unset) ∧
    ((wrapCmd rec attrOk cmd wres kwargs).span.status = .ok →
      ∃ u, wres = .ok u ∧ truthy u = true) := by
  constructor
  · intro h
    rw [wrapCmd_falsy rec attrOk cmd v kwargs h]
    have hp := inputPhase_preserves attrOk (startSpan rec cmd) kwargs
    exact ⟨rfl, rfl, hp.2.2.1⟩
  · exact wrapCmd_status_ok rec attrOk cmd wres kwargs

/-- Witness for C9: an empty-dict (falsy) response leaves no attributes,
an ended span, and unset status. -/
theorem C9_empty_result_witness :
    (wrapCmd true acceptAll "create" (.ok (.dict [])) []).span.attributes
      = [] ∧
    (wrapCmd true acceptAll "create" (.ok (.dict [])) []).span.ended
      = true ∧
    (wrapCmd true acceptAll "create" (.ok (.dict [])) []).span.status
      = .unset := by
  have h := (C9_empty_result true acceptAll "create" [] (.dict [])
    (.ok (.dict []))).1 rfl
  exact ⟨h.1.trans rfl, h.2.1, h.2.2⟩

/-- C10: Over-broad double-wrap guard — an original callable that carries
a `__wrapped__` attribute for any reason is invoked directly by the
wrapper: no span and no attributes are ever produced for it. -/
theorem C10_prewrapped_bypass (rec : Bool) (attrOk : String → PyVal → Bool)
    (kwargs : List (String × PyVal)) (cmd : String)
    (beh : Except PyErr PyVal) :
    call rec attrOk kwargs (.wrapt cmd (.original true beh)) =
      { result := beh, spans := [], warnings := 0, origCalls := 1 } := rfl

end OpenAIInstr
